import Mathlib

/-!
Verification development for the Nyx-Chat real-time hub
(`server/src/socket/socketHandler.ts` and `server/src/middleware/auth.ts`).

The socket layer keeps two module-level maps,
`connectedUsers : Map<socketId, SocketUser>` and
`userSockets : Map<userId, socketId>`, plus the socket.io runtime state:
the set of live sockets and the room membership table
(`socket.join` / `socket.leave` / automatic purge on disconnect).
We embed maps as association lists (JS `Map` preserves insertion order;
`set` replaces in place, `delete` removes the key) and each event handler
as a pure function from server state and payload to the new state plus
the list of emitted events, where each emission is resolved to the
concrete receiving socket id.
-/

set_option linter.unusedVariables false

namespace NyxChat

/-- Association-list lookup, mirroring JS `Map.get`. -/
def getA {α : Type} (m : List (String × α)) (k : String) : Option α :=
  match m with
  | [] => none
  | (k', v') :: rest => if k' = k then some v' else getA rest k

/-- Association-list insert/replace, mirroring JS `Map.set`
(an existing key keeps its position; a new key is appended). -/
def setA {α : Type} (m : List (String × α)) (k : String) (v : α) : List (String × α) :=
  match m with
  | [] => [(k, v)]
  | (k', v') :: rest => if k' = k then (k, v) :: rest else (k', v') :: setA rest k v

/-- Association-list delete, mirroring JS `Map.delete`. -/
def delA {α : Type} (m : List (String × α)) (k : String) : List (String × α) :=
  m.filter (fun p => p.1 != k)

/-- `SocketUser` record stored in `connectedUsers` (socketHandler.ts lines 11-17);
`lastSeen : Date` is embedded as a `Nat` tick. -/
structure SocketUser where
  userId : String
  username : String
  socketId : String
  status : String
  lastSeen : Nat
deriving DecidableEq, Repr

/-- One live socket.io connection together with the authenticated identity the
middleware attached to it (`socket.userId` / `socket.username`). -/
structure LiveSock where
  sid : String
  uid : String
  uname : String
deriving DecidableEq, Repr

/-- The hub's shared state: the socket.io runtime's live sockets and room
table, and the module-level `connectedUsers` / `userSockets` maps. -/
structure ServerState where
  sockets : List LiveSock
  connectedUsers : List (String × SocketUser)
  userSockets : List (String × String)
  rooms : List (String × List String)
deriving DecidableEq, Repr

def initState : ServerState := ⟨[], [], [], []⟩

/-- Socket ids of the currently connected sockets. -/
def liveIds (st : ServerState) : List String :=
  st.sockets.map (·.sid)

/-- Find the live socket with a given id. -/
def findSock (l : List LiveSock) (sid : String) : Option LiveSock :=
  match l with
  | [] => none
  | ls :: rest => if ls.sid = sid then some ls else findSock rest sid

/-- Members of a socket.io room (empty when the room does not exist). -/
def roomMembers (st : ServerState) (room : String) : List String :=
  (getA st.rooms room).getD []

/-- `socket.join(room)`: idempotent add of the socket to the room. -/
def joinRoom (rooms : List (String × List String)) (room sid : String) :
    List (String × List String) :=
  let ms := (getA rooms room).getD []
  if sid ∈ ms then rooms else setA rooms room (ms ++ [sid])

/-- `socket.leave(room)`. -/
def leaveRoom (rooms : List (String × List String)) (room sid : String) :
    List (String × List String) :=
  match getA rooms room with
  | none => rooms
  | some ms => setA rooms room (ms.filter (fun t => t != sid))

/-- On disconnect socket.io removes the socket from every room. -/
def purgeRooms (rooms : List (String × List String)) (sid : String) :
    List (String × List String) :=
  rooms.map (fun p => (p.1, p.2.filter (fun t => t != sid)))

/-- Entry of the presence snapshot sent as `users:online`
(socketHandler.ts lines 101-106). -/
structure OnlineInfo where
  userId : String
  username : String
  status : String
  lastSeen : Nat
deriving DecidableEq, Repr

/-- Payloads of the outbound events the handlers emit.  JS fields that can be
`undefined` (no validation anywhere) are embedded as `Option`. -/
inductive Payload where
  | userOnline (userId username status : String) (lastSeen : Nat)
  | usersOnline (users : List OnlineInfo)
  | statusChanged (userId status : String)
  | chatUserJoined (userId username chatId : String)
  | chatUserLeft (userId username chatId : String)
  | messageNew (chatId : Option String) (senderId senderUsername : String)
      (content : Option String) (mtype : String) (msgId : String) (ts : Nat)
  | errorMsg (message : String)
  | typingStart (userId username chatId : String)
  | typingStop (userId username chatId : String)
  | callIncoming (callId chatId initiatorId initiatorUsername ctype : String)
  | callAccepted (callId acceptedBy acceptedByUsername : String)
  | callDeclined (callId declinedBy declinedByUsername : String)
  | callEnded (callId endedBy endedByUsername : String)
  | webrtcOffer (callId offer fromUserId fromUsername : String)
  | webrtcAnswer (callId answer fromUserId fromUsername : String)
  | webrtcIce (callId candidate fromUserId fromUsername : String)
  | userOffline (userId username : String)
deriving DecidableEq, Repr

/-- One delivered event: the receiving socket, the event name, the payload. -/
structure Emit where
  target : String
  event : String
  payload : Payload
deriving DecidableEq, Repr

/-- `socket.broadcast.emit`: every connected socket except the sender. -/
def broadcastExcept (st : ServerState) (sid : String) : List String :=
  (liveIds st).filter (fun t => t != sid)

/-- `socket.to(room).emit`: room members except the sender. -/
def toRoomExcept (st : ServerState) (room sid : String) : List String :=
  (roomMembers st room).filter (fun t => t != sid)

/-- `io.to(room).emit`: all room members, the sender included if joined. -/
def ioToRoom (st : ServerState) (room : String) : List String :=
  roomMembers st room

/-- `io.to(socketId).emit`: each socket sits in a room named by its own id,
so this delivers to that socket exactly when it is still connected. -/
def ioToSocket (st : ServerState) (tsid : String) : List String :=
  if tsid ∈ liveIds st then [tsid] else []

/-- JS template-literal coercion: an `undefined` field interpolates as the
string `"undefined"` (so a missing `chatId` targets room `chat:undefined`). -/
def jstr (o : Option String) : String := o.getD "undefined"

/-- The `connection` handler body (lines 64-108): store the user in
`connectedUsers` and `userSockets`, join the personal room, broadcast
`user:online` to everyone else, then unicast the `users:online` snapshot
built from the updated `connectedUsers` map back to the new socket. -/
def handleConnect (st : ServerState) (sid uid uname : String) (now : Nat) :
    ServerState × List Emit :=
  let userInfo : SocketUser := ⟨uid, uname, sid, "online", now⟩
  let st1 : ServerState :=
    { sockets := st.sockets ++ [⟨sid, uid, uname⟩]
      connectedUsers := setA st.connectedUsers sid userInfo
      userSockets := setA st.userSockets uid sid
      rooms := joinRoom st.rooms ("user:" ++ uid) sid }
  let onlineEs := (broadcastExcept st1 sid).map
    (fun t => Emit.mk t "user:online" (.userOnline uid uname "online" now))
  let snapshot := st1.connectedUsers.map
    (fun p => OnlineInfo.mk p.2.userId p.2.username p.2.status p.2.lastSeen)
  (st1, onlineEs ++ [Emit.mk sid "users:online" (.usersOnline snapshot)])

/-- The `user:status` handler (lines 111-137): update the in-memory entry only
if the socket is still in `connectedUsers`, but broadcast
`user:status_changed` unconditionally. -/
def handleUserStatus (st : ServerState) (sid uid status : String) :
    ServerState × List Emit :=
  let cu' := match getA st.connectedUsers sid with
    | some ui => setA st.connectedUsers sid { ui with status := status }
    | none => st.connectedUsers
  let st1 := { st with connectedUsers := cu' }
  (st1, (broadcastExcept st1 sid).map
    (fun t => Emit.mk t "user:status_changed" (.statusChanged uid status)))

/-- The `chat:join` handler (lines 140-159). -/
def handleChatJoin (st : ServerState) (sid uid uname chatId : String) :
    ServerState × List Emit :=
  let room := "chat:" ++ chatId
  let st1 := { st with rooms := joinRoom st.rooms room sid }
  (st1, (toRoomExcept st1 room sid).map
    (fun t => Emit.mk t "chat:user_joined" (.chatUserJoined uid uname chatId)))

/-- The `chat:leave` handler (lines 162-179). -/
def handleChatLeave (st : ServerState) (sid uid uname chatId : String) :
    ServerState × List Emit :=
  let room := "chat:" ++ chatId
  let st1 := { st with rooms := leaveRoom st.rooms room sid }
  (st1, (toRoomExcept st1 room sid).map
    (fun t => Emit.mk t "chat:user_left" (.chatUserLeft uid uname chatId)))

/-- Raw `message:send` payload: every field may be absent, nothing is
validated (`const \x7b chatId, content, type = 'text', ... \x7d = data`). -/
structure MsgSendData where
  chatId : Option String
  content : Option String
  mtype : Option String
deriving DecidableEq, Repr

/-- The `message:send` handler (lines 182-210).  An absent payload object
makes the destructuring throw, which the `catch` turns into a targeted
`error` emit; otherwise no field is checked and the message is fanned out
with `io.to` to the room named by template-interpolating `chatId`. -/
def handleMessageSend (st : ServerState) (sid uid uname : String)
    (data : Option MsgSendData) (msgId : String) (now : Nat) :
    ServerState × List Emit :=
  match data with
  | none => (st, [Emit.mk sid "error" (.errorMsg "Failed to send message")])
  | some d =>
    let room := "chat:" ++ jstr d.chatId
    let payload : Payload :=
      .messageNew d.chatId uid uname d.content (d.mtype.getD "text") msgId now
    (st, (ioToRoom st room).map (fun t => Emit.mk t "message:new" payload))

/-- The `message:edit` handler (lines 213-236): the fan-out is commented out
(the owning chat is never resolved), so nothing is emitted and no state
is touched. -/
def handleMessageEdit (st : ServerState) (sid uid messageId content : String) :
    ServerState × List Emit :=
  (st, [])

/-- The `message:delete` handler (lines 239-255): broadcast stubbed out. -/
def handleMessageDelete (st : ServerState) (sid uid messageId : String) :
    ServerState × List Emit :=
  (st, [])

/-- The `message:react` handler (lines 277-304): broadcast stubbed out. -/
def handleMessageReact (st : ServerState) (sid uid uname messageId emoji action : String) :
    ServerState × List Emit :=
  (st, [])

/-- The `typing:start` handler (lines 258-265). -/
def handleTypingStart (st : ServerState) (sid uid uname chatId : String) :
    ServerState × List Emit :=
  (st, (toRoomExcept st ("chat:" ++ chatId) sid).map
    (fun t => Emit.mk t "typing:start" (.typingStart uid uname chatId)))

/-- The `typing:stop` handler (lines 267-274). -/
def handleTypingStop (st : ServerState) (sid uid uname chatId : String) :
    ServerState × List Emit :=
  (st, (toRoomExcept st ("chat:" ++ chatId) sid).map
    (fun t => Emit.mk t "typing:stop" (.typingStop uid uname chatId)))

/-- The `call:start` handler (lines 307-329): `call:incoming` to the other
members of the chat room. -/
def handleCallStart (st : ServerState) (sid uid uname chatId ctype callId : String) :
    ServerState × List Emit :=
  (st, (toRoomExcept st ("chat:" ++ chatId) sid).map
    (fun t => Emit.mk t "call:incoming" (.callIncoming callId chatId uid uname ctype)))

/-- The `call:accept` handler (lines 331-349): `socket.broadcast.emit`,
i.e. every connected socket except the accepting one. -/
def handleCallAccept (st : ServerState) (sid uid uname callId : String) :
    ServerState × List Emit :=
  (st, (broadcastExcept st sid).map
    (fun t => Emit.mk t "call:accepted" (.callAccepted callId uid uname)))

/-- The `call:decline` handler (lines 351-368). -/
def handleCallDecline (st : ServerState) (sid uid uname callId : String) :
    ServerState × List Emit :=
  (st, (broadcastExcept st sid).map
    (fun t => Emit.mk t "call:declined" (.callDeclined callId uid uname)))

/-- The `call:end` handler (lines 370-388). -/
def handleCallEnd (st : ServerState) (sid uid uname callId : String) :
    ServerState × List Emit :=
  (st, (broadcastExcept st sid).map
    (fun t => Emit.mk t "call:ended" (.callEnded callId uid uname)))

/-- The `webrtc:offer` handler (lines 391-403): resolve the target's socket
through `userSockets`; if absent, do nothing (no error to the sender);
otherwise `io.to(targetSocketId)` with the sender's identity attached. -/
def handleWebrtcOffer (st : ServerState) (sid uid uname callId offer targetUserId : String) :
    ServerState × List Emit :=
  match getA st.userSockets targetUserId with
  | none => (st, [])
  | some tsid =>
    (st, (ioToSocket st tsid).map
      (fun t => Emit.mk t "webrtc:offer" (.webrtcOffer callId offer uid uname)))

/-- The `webrtc:answer` handler (lines 405-417). -/
def handleWebrtcAnswer (st : ServerState) (sid uid uname callId answer targetUserId : String) :
    ServerState × List Emit :=
  match getA st.userSockets targetUserId with
  | none => (st, [])
  | some tsid =>
    (st, (ioToSocket st tsid).map
      (fun t => Emit.mk t "webrtc:answer" (.webrtcAnswer callId answer uid uname)))

/-- The `webrtc:ice-candidate` handler (lines 419-431). -/
def handleWebrtcIce (st : ServerState) (sid uid uname callId candidate targetUserId : String) :
    ServerState × List Emit :=
  match getA st.userSockets targetUserId with
  | none => (st, [])
  | some tsid =>
    (st, (ioToSocket st tsid).map
      (fun t => Emit.mk t "webrtc:ice-candidate" (.webrtcIce callId candidate uid uname)))

/-- The `disconnect` handler (lines 434-460) together with the socket.io
runtime effects: the socket leaves the live set and all rooms;
`connectedUsers.delete(socket.id)` and `userSockets.delete(userId)` run
unconditionally; `user:offline` is broadcast to the remaining sockets. -/
def handleDisconnect (st : ServerState) (sid : String) : ServerState × List Emit :=
  match findSock st.sockets sid with
  | none => (st, [])
  | some ls =>
    let st1 : ServerState :=
      { sockets := st.sockets.filter (fun s => s.sid != sid)
        connectedUsers := delA st.connectedUsers sid
        userSockets := delA st.userSockets ls.uid
        rooms := purgeRooms st.rooms sid }
    (st1, (liveIds st1).map
      (fun t => Emit.mk t "user:offline" (.userOffline ls.uid ls.uname)))

/-- Exported `getConnectedUsers` (lines 487-489). -/
def getConnectedUsers (st : ServerState) : List SocketUser :=
  st.connectedUsers.map (·.2)

/-- Exported `getUserSocketId` (lines 491-493). -/
def getUserSocketId (st : ServerState) (userId : String) : Option String :=
  getA st.userSockets userId

/-- Exported `isUserOnline` (lines 495-497). -/
def isUserOnline (st : ServerState) (userId : String) : Bool :=
  (getA st.userSockets userId).isSome

/-- Exported `sendToUser` (lines 499-506): returns whether an entry was found
together with the deliveries performed. -/
def sendToUser (st : ServerState) (userId event : String) (p : Payload) :
    Bool × List Emit :=
  match getA st.userSockets userId with
  | some socketId => (true, (ioToSocket st socketId).map (fun t => Emit.mk t event p))
  | none => (false, [])

/-! ## Connection gate (the `io.use` middleware, socketHandler.ts lines 25-61)

The external JWT verifier and the user store are parameters: `verify` returns
the decoded `userId` or the thrown error's message, and the store maps a user
id to `(username, isActive)`. -/

/-- Account record as far as the gate reads it (`models/User`). -/
structure UserRec where
  username : String
  isActive : Bool
deriving DecidableEq, Repr

/-- One `logSecurity(event, null, details)` call, with the details object as
key-value pairs. -/
structure SecLog where
  event : String
  details : List (String × String)
deriving DecidableEq, Repr

/-- Result of the authentication middleware: `next(new Error(msg))` with its
security log, or an admitted socket with identity attached. -/
inductive GateResult where
  | rejected (errMsg : String) (log : SecLog)
  | admitted (userId username : String)
deriving DecidableEq, Repr

/-- The gate middleware body: missing token, thrown verify error (malformed /
expired / invalid signature all land in the `catch`), then the single
`!user || !user.isActive` branch, then success. -/
def authenticateSocket (verify : String → Except String String)
    (users : List (String × UserRec)) (socketId : String)
    (token : Option String) : GateResult :=
  match token with
  | none =>
    .rejected "Authentication token required"
      ⟨"Socket connection without token", [("socketId", socketId)]⟩
  | some tok =>
    match verify tok with
    | .error e =>
      .rejected "Authentication failed"
        ⟨"Socket authentication failed", [("socketId", socketId), ("error", e)]⟩
    | .ok decodedUserId =>
      match getA users decodedUserId with
      | none =>
        .rejected "Invalid user"
          ⟨"Socket connection with invalid user",
            [("socketId", socketId), ("userId", decodedUserId)]⟩
      | some user =>
        if user.isActive then .admitted decodedUserId user.username
        else
          .rejected "Invalid user"
            ⟨"Socket connection with invalid user",
              [("socketId", socketId), ("userId", decodedUserId)]⟩

/-- The error message of a rejection, if the gate rejected. -/
def GateResult.errMsg? : GateResult → Option String
  | .rejected m _ => some m
  | .admitted _ _ => none

/-- The security log of a rejection, if the gate rejected. -/
def GateResult.log? : GateResult → Option SecLog
  | .rejected _ l => some l
  | .admitted _ _ => none

/-! ## Traces of hub operations

`Op` covers connection registration, the room and status events, and
disconnect removal.  `stepState` dispatches an operation the way the socket.io
runtime would: a `connect` only happens with a fresh socket id (socket ids are
unique among live sockets), and any event from a socket that is not live is
never delivered to a handler. -/

inductive Op where
  | connect (sid uid uname : String) (now : Nat)
  | status (sid st : String)
  | join (sid chatId : String)
  | leave (sid chatId : String)
  | disconnect (sid : String)
deriving DecidableEq, Repr

/-- Apply one operation to the state (emissions dropped). -/
def stepState (st : ServerState) (op : Op) : ServerState :=
  match op with
  | .connect sid uid uname now =>
    match findSock st.sockets sid with
    | some _ => st
    | none => (handleConnect st sid uid uname now).1
  | .status sid s =>
    match findSock st.sockets sid with
    | some ls => (handleUserStatus st sid ls.uid s).1
    | none => st
  | .join sid chatId =>
    match findSock st.sockets sid with
    | some ls => (handleChatJoin st sid ls.uid ls.uname chatId).1
    | none => st
  | .leave sid chatId =>
    match findSock st.sockets sid with
    | some ls => (handleChatLeave st sid ls.uid ls.uname chatId).1
    | none => st
  | .disconnect sid => (handleDisconnect st sid).1

/-- Run a trace of operations from a state. -/
def runOps (st : ServerState) (ops : List Op) : ServerState :=
  ops.foldl stepState st

/-- The user-to-session index has no dangling entry: every `userSockets`
value is a key of `connectedUsers`. -/
def noDangling (st : ServerState) : Prop :=
  ∀ p ∈ st.userSockets, (getA st.connectedUsers p.2).isSome

/-- The hub invariant: every index entry points at a live socket of that very
user, every live socket has a `connectedUsers` entry, live socket ids are
unique, and room members are live sockets. -/
def Inv (st : ServerState) : Prop :=
  (∀ p ∈ st.userSockets, ∃ ls ∈ st.sockets, ls.sid = p.2 ∧ ls.uid = p.1)
  ∧ (∀ ls ∈ st.sockets, (getA st.connectedUsers ls.sid).isSome)
  ∧ (liveIds st).Nodup
  ∧ (∀ r ∈ st.rooms, ∀ m ∈ r.2, m ∈ liveIds st)

instance (st : ServerState) : Decidable (Inv st) := by
  unfold Inv; infer_instance

/-- The `users:online` presence snapshot derived from `getConnectedUsers`
(the registry's `listOnline` view, socketHandler.ts lines 101-106). -/
def onlineSnapshot (st : ServerState) : List OnlineInfo :=
  (getConnectedUsers st).map (fun u => ⟨u.userId, u.username, u.status, u.lastSeen⟩)

/-! ## Concrete example states and collaborators used as evaluation inputs -/

/-- Two users connected and both joined to `room1`, built by running the
actual handlers from the empty state. -/
def exSt : ServerState :=
  runOps initState
    [.connect "sA" "uA" "A" 0, .connect "sB" "uB" "B" 1,
     .join "sA" "room1", .join "sB" "room1"]

/-- Two users connected; the second also joined room `chat:undefined`
(a plain `chat:join` with the literal string `"undefined"`). -/
def exC5St : ServerState :=
  runOps initState
    [.connect "sA" "uA" "A" 0, .connect "sB" "uB" "B" 1,
     .join "sB" "undefined"]

/-- Three connected users. -/
def exC7St : ServerState :=
  runOps initState
    [.connect "sA" "uA" "A" 0, .connect "sB" "uB" "B" 1,
     .connect "sC" "uC" "C" 2]

/-- A racing state for `user:status`: socket `s1` is still live (its handler
can still fire) but its `connectedUsers` entry is already gone, while `s2`
is fully registered. -/
def exRaceSt : ServerState :=
  ⟨[⟨"s1", "u1", "A"⟩, ⟨"s2", "u2", "B"⟩],
   [("s2", ⟨"u2", "B", "s2", "online", 0⟩)],
   [("u2", "s2")],
   []⟩

/-- Example JWT verifier: two known tokens, everything else fails the way
`jwt.verify` throws. -/
def exVerify : String → Except String String := fun t =>
  if t = "tokA" then .ok "uA" else if t = "tokB" then .ok "uB"
  else .error "invalid signature"

/-- Example user store: `uA` does not exist, `uB` exists but is deactivated. -/
def exUsers : List (String × UserRec) := [("uB", ⟨"bob", false⟩)]

/-! ## Association-list lemmas -/

theorem getA_setA_self {α : Type} (m : List (String × α)) (k : String) (v : α) :
    getA (setA m k v) k = some v := by
  induction m with
  | nil => simp [setA, getA]
  | cons hd tl ih =>
    by_cases h : hd.1 = k
    · simp [setA, h, getA]
    · simp [setA, h, getA, ih]

theorem getA_setA_ne {α : Type} (m : List (String × α)) {k k' : String} (v : α)
    (h : k' ≠ k) : getA (setA m k v) k' = getA m k' := by
  induction m with
  | nil => simp [setA, getA, Ne.symm h]
  | cons hd tl ih =>
    by_cases hk : hd.1 = k
    · have h1 : ¬ (k = k') := Ne.symm h
      have h2 : ¬ (hd.1 = k') := by rw [hk]; exact h1
      simp only [setA, if_pos hk, getA]
      simp [h1, h2]
    · simp only [setA, if_neg hk, getA]
      by_cases hk' : hd.1 = k' <;> simp [hk', ih]

theorem getA_delA_self {α : Type} (m : List (String × α)) (k : String) :
    getA (delA m k) k = none := by
  induction m with
  | nil => rfl
  | cons hd tl ih =>
    simp only [delA, List.filter_cons] at ih ⊢
    by_cases h : hd.1 = k
    · simp only [h, bne_self_eq_false]
      exact ih
    · have : (hd.1 != k) = true := by simpa using h
      simp only [this, if_true, getA, if_neg h]
      exact ih

theorem getA_delA_ne {α : Type} (m : List (String × α)) {k k' : String}
    (h : k' ≠ k) : getA (delA m k) k' = getA m k' := by
  induction m with
  | nil => rfl
  | cons hd tl ih =>
    simp only [delA, List.filter_cons] at ih ⊢
    by_cases hk : hd.1 = k
    · have h2 : k ≠ k' := Ne.symm h
      simp [hk, getA, h2, ih]
    · have : (hd.1 != k) = true := by simpa using hk
      simp only [this, if_true, getA]
      by_cases hk' : hd.1 = k' <;> simp [hk', ih]

theorem mem_setA {α : Type} {m : List (String × α)} {k : String} {v : α}
    {p : String × α} (h : p ∈ setA m k v) : p = (k, v) ∨ p ∈ m := by
  induction m with
  | nil => simpa [setA] using h
  | cons hd tl ih =>
    by_cases hk : hd.1 = k
    · simp only [setA, if_pos hk, List.mem_cons] at h
      rcases h with h | h
      · exact Or.inl h
      · exact Or.inr (List.mem_cons_of_mem _ h)
    · simp only [setA, if_neg hk, List.mem_cons] at h
      rcases h with h | h
      · exact Or.inr (h ▸ List.mem_cons_self _ _)
      · rcases ih h with h' | h'
        · exact Or.inl h'
        · exact Or.inr (List.mem_cons_of_mem _ h')

theorem mem_setA_self {α : Type} (m : List (String × α)) (k : String) (v : α) :
    (k, v) ∈ setA m k v := by
  induction m with
  | nil => simp [setA]
  | cons hd tl ih =>
    by_cases hk : hd.1 = k
    · simp [setA, hk]
    · simp only [setA, if_neg hk, List.mem_cons]
      exact Or.inr ih

theorem isSome_getA_setA {α : Type} (m : List (String × α)) (k k' : String) (v : α)
    (h : (getA m k').isSome) : (getA (setA m k v) k').isSome := by
  by_cases hk : k' = k
  · rw [hk, getA_setA_self]; rfl
  · rw [getA_setA_ne m v hk]; exact h

theorem mem_delA {α : Type} {m : List (String × α)} {k : String} {p : String × α} :
    p ∈ delA m k ↔ p ∈ m ∧ p.1 ≠ k := by
  simp [delA, List.mem_filter, bne_iff_ne]

theorem getA_mem {α : Type} {m : List (String × α)} {k : String} {v : α}
    (h : getA m k = some v) : (k, v) ∈ m := by
  induction m with
  | nil => simp [getA] at h
  | cons hd tl ih =>
    rcases hd with ⟨a, b⟩
    by_cases hk : a = k
    · subst hk
      simp only [getA, if_pos rfl] at h
      cases h
      exact List.mem_cons_self _ _
    · simp only [getA, if_neg hk] at h
      exact List.mem_cons_of_mem _ (ih h)

theorem findSock_none_iff {l : List LiveSock} {sid : String} :
    findSock l sid = none ↔ sid ∉ l.map (·.sid) := by
  induction l with
  | nil => simp [findSock]
  | cons hd tl ih =>
    by_cases hk : hd.sid = sid
    · simp [findSock, hk]
    · simp [findSock, hk, ih, Ne.symm hk]

theorem findSock_mem {l : List LiveSock} {sid : String} {ls : LiveSock}
    (h : findSock l sid = some ls) : ls ∈ l ∧ ls.sid = sid := by
  induction l with
  | nil => simp [findSock] at h
  | cons hd tl ih =>
    by_cases hk : hd.sid = sid
    · simp only [findSock, if_pos hk] at h
      cases h
      exact ⟨List.mem_cons_self _ _, hk⟩
    · simp only [findSock, if_neg hk] at h
      exact ⟨List.mem_cons_of_mem _ (ih h).1, (ih h).2⟩

/-! ## Invariant preservation -/

theorem inv_init : Inv initState := by decide

theorem noDangling_of_inv {st : ServerState} (h : Inv st) : noDangling st := by
  obtain ⟨h1, h2, -, -⟩ := h
  intro p hp
  obtain ⟨ls, hls, hsid, -⟩ := h1 p hp
  simpa [hsid] using h2 ls hls

theorem inv_connect {st : ServerState} {sid uid uname : String} {now : Nat}
    (hInv : Inv st) (hfresh : findSock st.sockets sid = none) :
    Inv (handleConnect st sid uid uname now).1 := by
  obtain ⟨h1, h2, h3, h4⟩ := hInv
  have hfresh' : sid ∉ st.sockets.map (·.sid) := findSock_none_iff.mp hfresh
  refine ⟨?_, ?_, ?_, ?_⟩
  · intro p hp
    rcases mem_setA hp with h | h
    · exact ⟨⟨sid, uid, uname⟩, by simp [handleConnect], by simp [h]⟩
    · obtain ⟨ls, hls, hprop⟩ := h1 p h
      exact ⟨ls, by simp [handleConnect, hls], hprop⟩
  · intro ls hls
    simp only [handleConnect, List.mem_append, List.mem_singleton] at hls
    rcases hls with h | h
    · exact isSome_getA_setA _ _ _ _ (h2 ls h)
    · subst h
      simp [handleConnect, getA_setA_self]
  · simp only [handleConnect, liveIds, List.map_append, List.map_cons, List.map_nil]
    rw [List.nodup_append]
    refine ⟨h3, List.nodup_singleton _, ?_⟩
    intro a ha hb
    rw [List.mem_singleton] at hb
    subst hb
    exact hfresh' ha
  · intro r hr m hm
    have hgrow : ∀ x, x ∈ liveIds st → x ∈ liveIds (handleConnect st sid uid uname now).1 := by
      intro x hx
      simp only [handleConnect, liveIds, List.map_append] at *
      exact List.mem_append_left _ hx
    simp only [handleConnect] at hr
    unfold joinRoom at hr
    by_cases hmem : sid ∈ (getA st.rooms ("user:" ++ uid)).getD []
    · rw [if_pos hmem] at hr
      exact hgrow m (h4 r hr m hm)
    · rw [if_neg hmem] at hr
      rcases mem_setA hr with h | h
      · subst h
        simp only [List.mem_append, List.mem_singleton] at hm
        rcases hm with hm | hm
        · cases hroom : getA st.rooms ("user:" ++ uid) with
          | none => simp [hroom] at hm
          | some ms =>
            have := h4 _ (getA_mem hroom) m (by simpa [hroom] using hm)
            exact hgrow m this
        · subst hm
          simp [handleConnect, liveIds]
      · exact hgrow m (h4 r h m hm)

theorem inv_status {st : ServerState} {sid uid status : String}
    (hInv : Inv st) : Inv (handleUserStatus st sid uid status).1 := by
  obtain ⟨h1, h2, h3, h4⟩ := hInv
  refine ⟨h1, ?_, h3, h4⟩
  intro ls hls
  simp only [handleUserStatus]
  cases hcu : getA st.connectedUsers sid with
  | none => simpa using h2 ls hls
  | some ui => exact isSome_getA_setA _ _ _ _ (h2 ls hls)

theorem inv_join {st : ServerState} {sid uid uname chatId : String}
    (hInv : Inv st) (hlive : sid ∈ liveIds st) :
    Inv (handleChatJoin st sid uid uname chatId).1 := by
  obtain ⟨h1, h2, h3, h4⟩ := hInv
  refine ⟨h1, h2, h3, ?_⟩
  intro r hr m hm
  simp only [handleChatJoin] at hr
  unfold joinRoom at hr
  by_cases hmem : sid ∈ (getA st.rooms ("chat:" ++ chatId)).getD []
  · rw [if_pos hmem] at hr
    exact h4 r hr m hm
  · rw [if_neg hmem] at hr
    rcases mem_setA hr with h | h
    · subst h
      simp only [List.mem_append, List.mem_singleton] at hm
      rcases hm with hm | hm
      · cases hroom : getA st.rooms ("chat:" ++ chatId) with
        | none => simp [hroom] at hm
        | some ms => exact h4 _ (getA_mem hroom) m (by simpa [hroom] using hm)
      · exact hm ▸ hlive
    · exact h4 r h m hm

theorem inv_leave {st : ServerState} {sid uid uname chatId : String}
    (hInv : Inv st) : Inv (handleChatLeave st sid uid uname chatId).1 := by
  obtain ⟨h1, h2, h3, h4⟩ := hInv
  refine ⟨h1, h2, h3, ?_⟩
  intro r hr m hm
  simp only [handleChatLeave] at hr
  unfold leaveRoom at hr
  cases hroom : getA st.rooms ("chat:" ++ chatId) with
  | none =>
    rw [hroom] at hr
    exact h4 r hr m hm
  | some ms =>
    rw [hroom] at hr
    rcases mem_setA hr with h | h
    · subst h
      simp only [List.mem_filter] at hm
      exact h4 _ (getA_mem hroom) m hm.1
    · exact h4 r h m hm

theorem inv_disconnect {st : ServerState} {sid : String}
    (hInv : Inv st) : Inv (handleDisconnect st sid).1 := by
  obtain ⟨h1, h2, h3, h4⟩ := hInv
  cases hfind : findSock st.sockets sid with
  | none => simpa [handleDisconnect, hfind] using ⟨h1, h2, h3, h4⟩
  | some ls0 =>
    obtain ⟨hls0mem, hls0sid⟩ := findSock_mem hfind
    have hinj := List.inj_on_of_nodup_map (f := fun s : LiveSock => s.sid) h3
    refine ⟨?_, ?_, ?_, ?_⟩
    · intro p hp
      simp only [handleDisconnect, hfind] at hp
      rw [mem_delA] at hp
      obtain ⟨hpm, hpne⟩ := hp
      obtain ⟨ls, hls, hsid, huid⟩ := h1 p hpm
      have hne : ls.sid ≠ sid := by
        intro heq
        have : ls = ls0 := hinj hls hls0mem (by rw [heq, hls0sid])
        exact hpne (by rw [← huid, this])
      refine ⟨ls, ?_, hsid, huid⟩
      simp only [handleDisconnect, hfind, List.mem_filter, bne_iff_ne]
      exact ⟨hls, by simpa using hne⟩
    · intro ls hls
      simp only [handleDisconnect, hfind, List.mem_filter, bne_iff_ne] at hls
      obtain ⟨hmem, hne⟩ := hls
      simp only [handleDisconnect, hfind]
      rw [getA_delA_ne _ (by simpa using hne)]
      exact h2 ls hmem
    · simp only [handleDisconnect, hfind, liveIds]
      exact List.Nodup.sublist (List.Sublist.map _ (List.filter_sublist _)) h3
    · intro r hr m hm
      simp only [handleDisconnect, hfind, purgeRooms, List.mem_map] at hr
      obtain ⟨r0, hr0, hr0eq⟩ := hr
      subst hr0eq
      simp only [List.mem_filter, bne_iff_ne] at hm
      obtain ⟨hm0, hmne⟩ := hm
      have hmlive := h4 r0 hr0 m hm0
      simp only [liveIds, List.mem_map] at hmlive
      obtain ⟨ls, hls, hlsid⟩ := hmlive
      have hlsne : ls.sid ≠ sid := fun hc => hmne (by rw [← hlsid, hc])
      simp only [handleDisconnect, hfind, liveIds, List.mem_map]
      refine ⟨ls, ?_, hlsid⟩
      rw [List.mem_filter]
      exact ⟨hls, by simpa [bne_iff_ne] using hlsne⟩

theorem inv_step {st : ServerState} (op : Op) (hInv : Inv st) :
    Inv (stepState st op) := by
  cases op with
  | connect sid uid uname now =>
    simp only [stepState]
    cases hfind : findSock st.sockets sid with
    | none => exact inv_connect hInv hfind
    | some ls => exact hInv
  | status sid s =>
    simp only [stepState]
    cases hfind : findSock st.sockets sid with
    | none => exact hInv
    | some ls => exact inv_status hInv
  | join sid chatId =>
    simp only [stepState]
    cases hfind : findSock st.sockets sid with
    | none => exact hInv
    | some ls =>
      refine inv_join hInv ?_
      obtain ⟨hmem, hsid⟩ := findSock_mem hfind
      simpa [liveIds, List.mem_map] using ⟨ls, hmem, hsid⟩
  | leave sid chatId =>
    simp only [stepState]
    cases hfind : findSock st.sockets sid with
    | none => exact hInv
    | some ls => exact inv_leave hInv
  | disconnect sid =>
    simp only [stepState]
    exact inv_disconnect hInv

theorem inv_runOps {st : ServerState} (ops : List Op) (hInv : Inv st) :
    Inv (runOps st ops) := by
  induction ops generalizing st with
  | nil => exact hInv
  | cons op rest ih =>
    simp only [runOps, List.foldl_cons]
    exact ih (inv_step op hInv)

/-! ## Delivery-target lemmas -/

theorem mem_broadcastExcept {st : ServerState} {sid t : String} :
    t ∈ broadcastExcept st sid ↔ t ∈ liveIds st ∧ t ≠ sid := by
  simp [broadcastExcept, List.mem_filter, bne_iff_ne]

theorem target_mem_map_iff (l : List String) (ev : String) (p : Payload) (t : String) :
    (∃ e ∈ l.map (fun x => Emit.mk x ev p), e.target = t) ↔ t ∈ l := by
  constructor
  · rintro ⟨e, he, het⟩
    rw [List.mem_map] at he
    obtain ⟨x, hx, hxe⟩ := he
    subst hxe
    exact het ▸ hx
  · intro ht
    exact ⟨⟨t, ev, p⟩, List.mem_map_of_mem _ ht, rfl⟩

theorem filter_event_map_ne (l : List String) (ev ev' : String)
    (p : String → Payload) (h : ev ≠ ev') :
    (l.map (fun t => Emit.mk t ev (p t))).filter (fun e => e.event == ev') = [] := by
  induction l with
  | nil => rfl
  | cons hd tl ih =>
    simp only [List.map_cons, List.filter_cons]
    have hb : ((Emit.mk hd ev (p hd)).event == ev') = false := by
      simpa using h
    simp [hb, ih]

theorem roomMembers_live {st : ServerState} (hInv : Inv st) {m room : String}
    (hm : m ∈ roomMembers st room) : m ∈ liveIds st := by
  obtain ⟨-, -, -, h4⟩ := hInv
  unfold roomMembers at hm
  cases hroom : getA st.rooms room with
  | none => simp [hroom] at hm
  | some ms => exact h4 _ (getA_mem hroom) m (by simpa [hroom] using hm)

theorem findSock_append_of_notin {l1 : List LiveSock} (l2 : List LiveSock) {sid : String}
    (h : sid ∉ l1.map (·.sid)) : findSock (l1 ++ l2) sid = findSock l2 sid := by
  induction l1 with
  | nil => rfl
  | cons hd tl ih =>
    simp only [List.map_cons, List.mem_cons] at h
    push_neg at h
    simp only [List.cons_append, findSock]
    rw [if_neg (fun hc => h.1 hc.symm)]
    exact ih h.2

theorem handleDisconnect_found {st : ServerState} {sid : String} {ls : LiveSock}
    (h : findSock st.sockets sid = some ls) :
    (handleDisconnect st sid).1
      = { sockets := st.sockets.filter (fun s => s.sid != sid)
          connectedUsers := delA st.connectedUsers sid
          userSockets := delA st.userSockets ls.uid
          rooms := purgeRooms st.rooms sid } := by
  simp [handleDisconnect, h]

/-! ## Claims -/

/-- C2: for every sequence of connection registrations and disconnect
removals (any interleaving, the same user connecting twice included), every
entry remaining in `userSockets` maps to a `connectionId` present in
`connectedUsers`; the index never holds a dangling connectionId. -/
theorem userSockets_never_dangling (ops : List Op) :
    noDangling (runOps initState ops) :=
  noDangling_of_inv (inv_runOps ops inv_init)

/-- C8: `message:edit`, `message:delete` and `message:react` emit no fan-out
event of any kind to any session (the broadcast is stubbed out because the
owning room is never resolved), and leave the shared registry and membership
state unchanged. -/
theorem message_edit_delete_react_stubbed (st : ServerState)
    (sid uid uname messageId content emoji action : String) :
    handleMessageEdit st sid uid messageId content = (st, [])
    ∧ handleMessageDelete st sid uid messageId = (st, [])
    ∧ handleMessageReact st sid uid uname messageId emoji action = (st, []) :=
  ⟨rfl, rfl, rfl⟩

/-- C9: a newly admitted connection receives exactly one `users:online`
snapshot, unicast to itself, whose contents equal the registry's
`getConnectedUsers` view at the instant it is taken — which at that instant
already includes the newly connected user. -/
theorem connect_presence_snapshot (st : ServerState) (sid uid uname : String) (now : Nat) :
    ((handleConnect st sid uid uname now).2.filter (fun e => e.event == "users:online"))
      = [⟨sid, "users:online",
          .usersOnline (onlineSnapshot (handleConnect st sid uid uname now).1)⟩]
    ∧ (⟨uid, uname, "online", now⟩ : OnlineInfo)
        ∈ onlineSnapshot (handleConnect st sid uid uname now).1 := by
  constructor
  · simp only [handleConnect]
    rw [List.filter_append, filter_event_map_ne _ _ _ _ (by decide)]
    simp [onlineSnapshot, getConnectedUsers, List.map_map]
  · have hmem := mem_setA_self st.connectedUsers sid
      (⟨uid, uname, sid, "online", now⟩ : SocketUser)
    simp only [onlineSnapshot, getConnectedUsers, List.map_map, handleConnect]
    exact List.mem_map_of_mem _ hmem

/-- C6 counterexample: a `user:status` event on a connection absent from
`connectedUsers` (here `s1`, while `s2` is registered) still broadcasts
`user:status_changed`, so the operation is not a no-op as claimed. -/
theorem status_race_still_broadcasts :
    getA exRaceSt.connectedUsers "s1" = none
    ∧ (handleUserStatus exRaceSt "s1" "u1" "away").2
        = [⟨"s2", "user:status_changed", .statusChanged "u1" "away"⟩] := by decide

/-- C6 amended: when the connection is absent from the registry no session
state is mutated, but the status change is still broadcast to every other
connected session; when present, the session's status is mutated in place;
no prior status is returned anywhere. -/
theorem user_status_semantics (st : ServerState) (sid uid status : String) :
    (getA st.connectedUsers sid = none → (handleUserStatus st sid uid status).1 = st)
    ∧ (∀ ui, getA st.connectedUsers sid = some ui →
        (handleUserStatus st sid uid status).1
          = { st with connectedUsers := setA st.connectedUsers sid { ui with status := status } })
    ∧ ((handleUserStatus st sid uid status).2
        = (broadcastExcept st sid).map
            (fun t => Emit.mk t "user:status_changed" (.statusChanged uid status))) := by
  refine ⟨?_, ?_, ?_⟩
  · intro h
    simp [handleUserStatus, h]
  · intro ui h
    simp [handleUserStatus, h]
  · cases h : getA st.connectedUsers sid <;>
      simp [handleUserStatus, h, broadcastExcept, liveIds]

/-- Witness for the amended C6 theorem at concrete states: the racing state
is left unchanged, and a registered session's status really is mutated. -/
theorem user_status_semantics_witness :
    (handleUserStatus exRaceSt "s1" "u1" "away").1 = exRaceSt
    ∧ (handleUserStatus exSt "sA" "uA" "busy").1
        = { exSt with connectedUsers := setA exSt.connectedUsers "sA" ⟨"uA", "A", "sA", "busy", 0⟩ } := by
  have h1 := user_status_semantics exRaceSt "s1" "u1" "away"
  have h2 := user_status_semantics exSt "sA" "uA" "busy"
  exact ⟨h1.1 (by decide), h2.2.1 ⟨"uA", "A", "sA", "online", 0⟩ (by decide)⟩

/-- C7 counterexample: with three connected sessions, `call:accept` from
`sA` is not delivered to `sA`'s own (connected) session, so the event is not
broadcast to all connected sessions as stated. -/
theorem call_accept_skips_sender :
    "sA" ∈ liveIds exC7St
    ∧ ¬ (∃ e ∈ (handleCallAccept exC7St "sA" "uA" "A" "c1").2, e.target = "sA") := by
  decide

/-- C7 amended: `call:accepted` / `call:declined` / `call:ended` are
broadcast to every connected session except the sender's own (and in
particular to sessions that are not call participants), never only to the
call's participants. -/
theorem call_lifecycle_broadcast (st : ServerState) (sid uid uname callId t : String) :
    ((∃ e ∈ (handleCallAccept st sid uid uname callId).2, e.target = t)
        ↔ (t ∈ liveIds st ∧ t ≠ sid))
    ∧ ((∃ e ∈ (handleCallDecline st sid uid uname callId).2, e.target = t)
        ↔ (t ∈ liveIds st ∧ t ≠ sid))
    ∧ ((∃ e ∈ (handleCallEnd st sid uid uname callId).2, e.target = t)
        ↔ (t ∈ liveIds st ∧ t ≠ sid))
    ∧ (∀ e ∈ (handleCallAccept st sid uid uname callId).2,
        e.event = "call:accepted" ∧ e.payload = .callAccepted callId uid uname) := by
  refine ⟨?_, ?_, ?_, ?_⟩
  · simp only [handleCallAccept]
    exact (target_mem_map_iff _ _ _ t).trans mem_broadcastExcept
  · simp only [handleCallDecline]
    exact (target_mem_map_iff _ _ _ t).trans mem_broadcastExcept
  · simp only [handleCallEnd]
    exact (target_mem_map_iff _ _ _ t).trans mem_broadcastExcept
  · intro e he
    simp only [handleCallAccept, List.mem_map] at he
    obtain ⟨x, -, hxe⟩ := he
    subst hxe
    exact ⟨rfl, rfl⟩

/-- C1: a `message:send` carrying room identifier R from an Active session
produces `message:new` deliveries exactly to the sessions currently joined
to room R (so the sender's own session receives it whenever it is joined,
and no session outside the room receives anything), each annotated with the
sender's id and content; a session that is not live cannot be a target. -/
theorem message_send_room_delivery (st : ServerState) (hInv : Inv st)
    (sid uid uname chatId content mtype msgId : String)
    (hAct : findSock st.sockets sid = some ⟨sid, uid, uname⟩) (now : Nat) :
    (∀ t : String,
      (∃ e ∈ (handleMessageSend st sid uid uname
          (some ⟨some chatId, some content, some mtype⟩) msgId now).2, e.target = t)
        ↔ t ∈ roomMembers st ("chat:" ++ chatId))
    ∧ (∀ e ∈ (handleMessageSend st sid uid uname
          (some ⟨some chatId, some content, some mtype⟩) msgId now).2,
        e.event = "message:new"
        ∧ e.payload = .messageNew (some chatId) uid uname (some content) mtype msgId now)
    ∧ (sid ∈ roomMembers st ("chat:" ++ chatId) →
        ∃ e ∈ (handleMessageSend st sid uid uname
          (some ⟨some chatId, some content, some mtype⟩) msgId now).2, e.target = sid)
    ∧ (∀ t : String, t ∉ liveIds st →
        ¬ ∃ e ∈ (handleMessageSend st sid uid uname
          (some ⟨some chatId, some content, some mtype⟩) msgId now).2, e.target = t) := by
  have hiff : ∀ t : String,
      (∃ e ∈ (handleMessageSend st sid uid uname
          (some ⟨some chatId, some content, some mtype⟩) msgId now).2, e.target = t)
        ↔ t ∈ roomMembers st ("chat:" ++ chatId) := by
    intro t
    simp only [handleMessageSend, ioToRoom, jstr, Option.getD]
    exact target_mem_map_iff _ _ _ t
  refine ⟨hiff, ?_, fun h => (hiff sid).mpr h, ?_⟩
  · intro e he
    simp only [handleMessageSend, List.mem_map] at he
    obtain ⟨x, -, hxe⟩ := he
    subst hxe
    exact ⟨rfl, rfl⟩
  · intro t ht hex
    exact ht (roomMembers_live hInv ((hiff t).mp hex))

/-- Witness for C1 at the concrete two-member room state: B's joined session
is a delivery target of A's send. -/
theorem message_send_room_delivery_witness :
    ∃ e ∈ (handleMessageSend exSt "sA" "uA" "A"
        (some ⟨some "room1", some "hi", some "text"⟩) "m1" 5).2, e.target = "sB" := by
  have h := message_send_room_delivery exSt (by decide) "sA" "uA" "A" "room1" "hi" "text"
    "m1" (by decide) 5
  exact (h.1 "sB").mpr (by decide)

/-- C3: a webrtc offer / answer / ICE-candidate naming a target user with no
entry in `userSockets` is dropped with no error to the sender; with an
entry, exactly the session named by the entry receives the event, annotated
with the sender's user id and username, and no other session receives it. -/
theorem webrtc_relay_point_to_point (st : ServerState) (hInv : Inv st)
    (sid uid uname callId blob targetUserId : String) :
    (getA st.userSockets targetUserId = none →
      (handleWebrtcOffer st sid uid uname callId blob targetUserId).2 = []
      ∧ (handleWebrtcAnswer st sid uid uname callId blob targetUserId).2 = []
      ∧ (handleWebrtcIce st sid uid uname callId blob targetUserId).2 = [])
    ∧ (∀ tsid, getA st.userSockets targetUserId = some tsid →
      (handleWebrtcOffer st sid uid uname callId blob targetUserId).2
        = [⟨tsid, "webrtc:offer", .webrtcOffer callId blob uid uname⟩]
      ∧ (handleWebrtcAnswer st sid uid uname callId blob targetUserId).2
        = [⟨tsid, "webrtc:answer", .webrtcAnswer callId blob uid uname⟩]
      ∧ (handleWebrtcIce st sid uid uname callId blob targetUserId).2
        = [⟨tsid, "webrtc:ice-candidate", .webrtcIce callId blob uid uname⟩]) := by
  constructor
  · intro h
    exact ⟨by simp [handleWebrtcOffer, h], by simp [handleWebrtcAnswer, h],
      by simp [handleWebrtcIce, h]⟩
  · intro tsid h
    have hlive : tsid ∈ liveIds st := by
      obtain ⟨h1, -, -, -⟩ := hInv
      obtain ⟨ls, hls, hsid, -⟩ := h1 _ (getA_mem h)
      simpa [liveIds, List.mem_map] using ⟨ls, hls, hsid⟩
    exact ⟨by simp [handleWebrtcOffer, h, ioToSocket, hlive],
      by simp [handleWebrtcAnswer, h, ioToSocket, hlive],
      by simp [handleWebrtcIce, h, ioToSocket, hlive]⟩

/-- Witness for C3 at the concrete state: the offer reaches exactly B's
session with the sender's identity attached. -/
theorem webrtc_relay_point_to_point_witness :
    (handleWebrtcOffer exSt "sA" "uA" "A" "c1" "offer1" "uB").2
      = [⟨"sB", "webrtc:offer", .webrtcOffer "c1" "offer1" "uA" "A"⟩] := by
  have h := webrtc_relay_point_to_point exSt (by decide) "sA" "uA" "A" "c1" "offer1" "uB"
  exact (h.2 "sB" (by decide)).1

/-- C4 counterexample: account-not-found (`tokA` decodes to a user absent
from the store) and account-deactivated (`tokB` decodes to the deactivated
`uB`) produce the very same rejection, `Invalid user`, not two distinct
named failures. -/
theorem gate_notfound_deactivated_same_error :
    (authenticateSocket exVerify exUsers "s1" (some "tokA")).errMsg?
      = (authenticateSocket exVerify exUsers "s2" (some "tokB")).errMsg?
    ∧ (authenticateSocket exVerify exUsers "s1" (some "tokA")).errMsg?
      = some "Invalid user" := by decide

/-- C4 amended: the socket gate produces three named failures, not four —
missing credential yields `Authentication token required`, a
malformed/expired/invalid credential yields `Authentication failed`, and
account-not-found and account-deactivated share the single failure
`Invalid user`; the three are pairwise distinct, and every rejection is
logged with the connection identifier and never the raw credential. -/
theorem gate_rejection_taxonomy (verify : String → Except String String)
    (users : List (String × UserRec)) (socketId tok : String) :
    (authenticateSocket verify users socketId none
      = .rejected "Authentication token required"
          ⟨"Socket connection without token", [("socketId", socketId)]⟩)
    ∧ (∀ e, verify tok = .error e →
        authenticateSocket verify users socketId (some tok)
          = .rejected "Authentication failed"
              ⟨"Socket authentication failed", [("socketId", socketId), ("error", e)]⟩)
    ∧ (∀ u, verify tok = .ok u → getA users u = none →
        authenticateSocket verify users socketId (some tok)
          = .rejected "Invalid user"
              ⟨"Socket connection with invalid user",
                [("socketId", socketId), ("userId", u)]⟩)
    ∧ (∀ u rec, verify tok = .ok u → getA users u = some rec → rec.isActive = false →
        authenticateSocket verify users socketId (some tok)
          = .rejected "Invalid user"
              ⟨"Socket connection with invalid user",
                [("socketId", socketId), ("userId", u)]⟩)
    ∧ (("Authentication token required" ≠ "Authentication failed")
        ∧ ("Authentication token required" ≠ "Invalid user")
        ∧ ("Authentication failed" ≠ "Invalid user"))
    ∧ (∀ r log, authenticateSocket verify users socketId (some tok) = .rejected r log →
        ("socketId", socketId) ∈ log.details
        ∧ (tok ≠ socketId → (∀ e, verify tok = .error e → tok ≠ e) →
            (∀ u, verify tok = .ok u → tok ≠ u) →
            ∀ kv ∈ log.details, kv.2 ≠ tok)) := by
  refine ⟨rfl, ?_, ?_, ?_, ⟨by decide, by decide, by decide⟩, ?_⟩
  · intro e he
    simp [authenticateSocket, he]
  · intro u hu hnone
    simp [authenticateSocket, hu, hnone]
  · intro u rec hu hrec hina
    simp [authenticateSocket, hu, hrec, hina]
  · intro r log hrej
    cases hv : verify tok with
    | error e =>
      simp only [authenticateSocket, hv, GateResult.rejected.injEq] at hrej
      obtain ⟨-, hlog⟩ := hrej
      subst hlog
      refine ⟨by simp, ?_⟩
      intro hne1 hne2 hne3 kv hkv
      simp only [List.mem_cons, List.not_mem_nil, or_false] at hkv
      rcases hkv with hkv | hkv <;> subst hkv
      · exact Ne.symm hne1
      · exact Ne.symm (hne2 e rfl)
    | ok u =>
      cases hg : getA users u with
      | none =>
        simp only [authenticateSocket, hv, hg, GateResult.rejected.injEq] at hrej
        obtain ⟨-, hlog⟩ := hrej
        subst hlog
        refine ⟨by simp, ?_⟩
        intro hne1 hne2 hne3 kv hkv
        simp only [List.mem_cons, List.not_mem_nil, or_false] at hkv
        rcases hkv with hkv | hkv <;> subst hkv
        · exact Ne.symm hne1
        · exact Ne.symm (hne3 u rfl)
      | some rec =>
        cases hact : rec.isActive with
        | true =>
          simp [authenticateSocket, hv, hg, hact] at hrej
        | false =>
          simp only [authenticateSocket, hv, hg, hact, Bool.false_eq_true, if_false,
            GateResult.rejected.injEq] at hrej
          obtain ⟨-, hlog⟩ := hrej
          subst hlog
          refine ⟨by simp, ?_⟩
          intro hne1 hne2 hne3 kv hkv
          simp only [List.mem_cons, List.not_mem_nil, or_false] at hkv
          rcases hkv with hkv | hkv <;> subst hkv
          · exact Ne.symm hne1
          · exact Ne.symm (hne3 u rfl)

/-- Witness for the amended C4 theorem at the concrete verifier and store:
the three rejection shapes are realized exactly as stated. -/
theorem gate_rejection_taxonomy_witness :
    authenticateSocket exVerify exUsers "s1" none
      = .rejected "Authentication token required"
          ⟨"Socket connection without token", [("socketId", "s1")]⟩
    ∧ authenticateSocket exVerify exUsers "s1" (some "zz")
      = .rejected "Authentication failed"
          ⟨"Socket authentication failed", [("socketId", "s1"), ("error", "invalid signature")]⟩
    ∧ authenticateSocket exVerify exUsers "s1" (some "tokB")
      = .rejected "Invalid user"
          ⟨"Socket connection with invalid user", [("socketId", "s1"), ("userId", "uB")]⟩ := by
  have h := gate_rejection_taxonomy exVerify exUsers "s1" "zz"
  have h2 := gate_rejection_taxonomy exVerify exUsers "s1" "tokB"
  exact ⟨h.1, h.2.1 "invalid signature" rfl,
    h2.2.2.2.1 "uB" ⟨"bob", false⟩ rfl rfl rfl⟩

/-- C5 counterexample: a `message:send` whose payload object is present but
lacks the required `chatId` field is not rejected — it is fanned out as
`message:new` to room `chat:undefined`, reaching another session (`sB`, who
joined that room), so handlers do not check payloads before acting. -/
theorem malformed_send_fans_out :
    ∃ e ∈ (handleMessageSend exC5St "sA" "uA" "A"
        (some ⟨none, some "hi", none⟩) "m1" 2).2,
      e.target ≠ "sA" ∧ e.event = "message:new" := by decide

/-- C5 amended: an absent payload object yields exactly one targeted `error`
event to the sender and no state change (the connection stays open), but
handlers do not validate required fields: a payload missing `chatId` is
acted on, fanning `message:new` out to room `chat:undefined`, which any
session that joined that room receives; no handler branch closes the
connection. -/
theorem message_send_without_validation (st : ServerState)
    (sid uid uname content msgId : String) (now : Nat) :
    (handleMessageSend st sid uid uname none msgId now
      = (st, [⟨sid, "error", .errorMsg "Failed to send message"⟩]))
    ∧ (∀ t, t ∈ roomMembers st "chat:undefined" →
        (Emit.mk t "message:new" (.messageNew none uid uname (some content) "text" msgId now))
          ∈ (handleMessageSend st sid uid uname (some ⟨none, some content, none⟩) msgId now).2)
    ∧ (∀ d : MsgSendData, (handleMessageSend st sid uid uname (some d) msgId now).1 = st) := by
  refine ⟨rfl, ?_, fun d => rfl⟩
  intro t ht
  have hroom : ("chat:" ++ jstr (none : Option String)) = "chat:undefined" := rfl
  simp only [handleMessageSend, ioToRoom, jstr, Option.getD, hroom]
  exact List.mem_map_of_mem _ ht

/-- Witness for the amended C5 theorem: at the concrete state, `sB` (joined
to `chat:undefined`) receives the unvalidated message. -/
theorem message_send_without_validation_witness :
    (Emit.mk "sB" "message:new" (.messageNew none "uA" "A" (some "hi") "text" "m1" 2))
      ∈ (handleMessageSend exC5St "sA" "uA" "A" (some ⟨none, some "hi", none⟩) "m1" 2).2 := by
  have h := message_send_without_validation exC5St "sA" "uA" "A" "hi" "m1" 2
  exact h.2.1 "sB" (by decide)

/-- C10: when user u has two live sessions s1 and s2 (the second registration
overwrote u's `userSockets` entry), processing the disconnect of either
session deletes u's index entry unconditionally: afterwards
`isUserOnline u` is false, `getUserSocketId u` is `none`, and
`sendToUser u` returns false without emitting, although u's other session
is still present in `connectedUsers`. -/
theorem double_login_disconnect_clears_index
    (st stA stB stC stD : ServerState)
    (s1 s2 u un1 un2 ev : String) (p : Payload) (n1 n2 : Nat)
    (hne : s1 ≠ s2) (h1 : s1 ∉ liveIds st) (h2 : s2 ∉ liveIds st)
    (hA : stA = (handleConnect st s1 u un1 n1).1)
    (hB : stB = (handleConnect stA s2 u un2 n2).1)
    (hC : stC = (handleDisconnect stB s1).1)
    (hD : stD = (handleDisconnect stB s2).1) :
    (getUserSocketId stC u = none ∧ isUserOnline stC u = false
      ∧ sendToUser stC u ev p = (false, [])
      ∧ (getA stC.connectedUsers s2).isSome = true)
    ∧ (getUserSocketId stD u = none ∧ isUserOnline stD u = false
      ∧ sendToUser stD u ev p = (false, [])
      ∧ (getA stD.connectedUsers s1).isSome = true) := by
  subst hA
  subst hB
  have hsockB : ((handleConnect (handleConnect st s1 u un1 n1).1 s2 u un2 n2).1).sockets
      = st.sockets ++ [⟨s1, u, un1⟩, ⟨s2, u, un2⟩] := by
    simp [handleConnect]
  have hf1 : findSock ((handleConnect (handleConnect st s1 u un1 n1).1 s2 u un2 n2).1).sockets s1
      = some ⟨s1, u, un1⟩ := by
    rw [hsockB, findSock_append_of_notin _ h1]
    simp [findSock]
  have hf2 : findSock ((handleConnect (handleConnect st s1 u un1 n1).1 s2 u un2 n2).1).sockets s2
      = some ⟨s2, u, un2⟩ := by
    rw [hsockB, findSock_append_of_notin _ h2]
    have hne' : ¬ (s1 = s2) := hne
    simp [findSock, hne']
  subst hC
  subst hD
  rw [handleDisconnect_found hf1, handleDisconnect_found hf2]
  refine ⟨⟨?_, ?_, ?_, ?_⟩, ⟨?_, ?_, ?_, ?_⟩⟩
  · simp [getUserSocketId, getA_delA_self]
  · simp [isUserOnline, getA_delA_self]
  · simp [sendToUser, getA_delA_self]
  · rw [getA_delA_ne _ (Ne.symm hne)]
    simp only [handleConnect]
    rw [getA_setA_self]
    rfl
  · simp [getUserSocketId, getA_delA_self]
  · simp [isUserOnline, getA_delA_self]
  · simp [sendToUser, getA_delA_self]
  · rw [getA_delA_ne _ hne]
    simp only [handleConnect]
    rw [getA_setA_ne _ _ hne, getA_setA_self]
    rfl

/-- Witness for C10 from the empty state: user u connects twice (sockets `a`
then `b`), socket `a` disconnects; the index entry for u is gone while
socket `b` is still registered. -/
theorem double_login_disconnect_clears_index_witness :
    isUserOnline ((handleDisconnect
        ((handleConnect ((handleConnect initState "a" "u" "A" 0).1) "b" "u" "B" 1).1) "a").1) "u"
      = false
    ∧ (getA ((handleDisconnect
        ((handleConnect ((handleConnect initState "a" "u" "A" 0).1) "b" "u" "B" 1).1) "a").1).connectedUsers
          "b").isSome = true := by
  have h := double_login_disconnect_clears_index initState
    ((handleConnect initState "a" "u" "A" 0).1)
    ((handleConnect ((handleConnect initState "a" "u" "A" 0).1) "b" "u" "B" 1).1)
    ((handleDisconnect ((handleConnect ((handleConnect initState "a" "u" "A" 0).1) "b" "u" "B" 1).1) "a").1)
    ((handleDisconnect ((handleConnect ((handleConnect initState "a" "u" "A" 0).1) "b" "u" "B" 1).1) "b").1)
    "a" "b" "u" "A" "B" "ev" (.errorMsg "x") 0 1
    (by decide) (by decide) (by decide) rfl rfl rfl rfl
  exact ⟨h.1.2.1, h.1.2.2.2⟩

/-- Witness for C2 at a concrete trace: a user connects twice and one socket
disconnects; the index is dangling-free. -/
theorem userSockets_never_dangling_witness :
    noDangling (runOps initState
      [.connect "a" "u" "A" 0, .connect "b" "u" "B" 1, .disconnect "a"]) :=
  userSockets_never_dangling [.connect "a" "u" "A" 0, .connect "b" "u" "B" 1, .disconnect "a"]

/-- Witness for C8 at a concrete state. -/
theorem message_edit_delete_react_stubbed_witness :
    handleMessageEdit exSt "sA" "uA" "m1" "new" = (exSt, [])
    ∧ handleMessageDelete exSt "sA" "uA" "m1" = (exSt, [])
    ∧ handleMessageReact exSt "sA" "uA" "A" "m1" "+1" "add" = (exSt, []) :=
  message_edit_delete_react_stubbed exSt "sA" "uA" "A" "m1" "new" "+1" "add"

/-- Witness for C9 at the empty start state: the snapshot sent to the first
connecting user contains that user. -/
theorem connect_presence_snapshot_witness :
    (⟨"uA", "A", "online", 0⟩ : OnlineInfo)
      ∈ onlineSnapshot (handleConnect initState "sA" "uA" "A" 0).1 :=
  (connect_presence_snapshot initState "sA" "uA" "A" 0).2

/-- Witness for the amended C7 theorem: a session that is no call participant
still receives the accept event. -/
theorem call_lifecycle_broadcast_witness :
    ∃ e ∈ (handleCallAccept exC7St "sA" "uA" "A" "c1").2, e.target = "sC" := by
  have h := call_lifecycle_broadcast exC7St "sA" "uA" "A" "c1" "sC"
  exact h.1.mpr (by decide)

end NyxChat
